import Mathlib

/-!
Shallow embedding of the ExpressionEvaluator core (include/enums.h,
include/filter_structs.h, include/key.h, src/parser.cpp) and proofs of the
specification claims.

Modelling decisions:
* `ValueType = std::variant<int64_t, double, std::string, bool>` becomes the
  inductive `Value` below; the C++ `double` payload is modelled exactly by a
  rational number (`Rat`), so the promotion structure, the zero test of
  DIVIDE and equality/ordering are captured exactly; IEEE-754 rounding is out
  of scope.  `int64_t` is modelled by `Int`: signed overflow is undefined
  behaviour in C++, so the embedding models the defined (non-overflowing)
  behaviour.
* `ParseException` carriers are classified by the error kinds of the spec
  (`EvalErr`): the distinct exception messages of parser.cpp map onto
  TypeMismatch, KeyNotFound, DivisionByZero and UnsupportedOperation.
* `throw` / exception propagation becomes the `Except` error monad, written
  as explicit matches so that the sequential, abort-on-first-failure control
  flow of the lambda in `LanguageParser::parse` is syntactically visible.
* The repository holds two revisions of `LanguageParser::parse`: one whose
  lambda resolves keys by linear search (`getValueFromKey`, std::find_if,
  first match in record order) and the optimized one that first builds a
  `std::unordered_map` (insertion in record order, `operator[]` overwrites,
  so the last occurrence of a name wins) and resolves through
  `getValueFromKeyMap`.  Both lambdas are embedded (`evalLinear`,
  `evalMap`); they share the loop body, which differs only in the lookup
  function, factored here as the `lookup` parameter of `evaluateSubExpr`
  and `evalSubList`.
-/

attribute [local semireducible] Rat.add Rat.mul Rat.inv Rat.sub

namespace ExpressionEvaluator

/-- enums.h: the four arithmetic operators. -/
inductive ArithmeticOperations where
  | ADD
  | SUBTRACT
  | MULTIPLY
  | DIVIDE
deriving DecidableEq, Repr

/-- enums.h: the six comparison operators. -/
inductive ComparisonOperations where
  | EQUAL
  | NOT_EQUAL
  | GREATER_THAN
  | LESS_THAN
  | GREATER_EQUAL
  | LESS_EQUAL
deriving DecidableEq, Repr

/-- enums.h: the logical operators.  `NOT` is declared in the enum but is not
handled by any switch of parser.cpp, so it falls into the default branch of
the logical fold (an UnsupportedOperation failure). -/
inductive LogicalOperations where
  | AND
  | OR
  | NOT
  | NONE
deriving DecidableEq, Repr

/-- key.h: `ValueType = std::variant<int64_t, double, std::string, bool>`.
The `double` payload is modelled by `Rat` (exact arithmetic). -/
inductive Value where
  | int (i : Int)
  | float (q : Rat)
  | str (s : String)
  | bool (b : Bool)
deriving DecidableEq, Repr

/-- `std::variant::index()` for `ValueType`, in declaration order. -/
def Value.variantIndex : Value → Nat
  | .int _ => 0
  | .float _ => 1
  | .str _ => 2
  | .bool _ => 3

/-- A value is numeric when it holds the int64 or the double alternative. -/
def Value.isNumeric : Value → Bool
  | .int _ => true
  | .float _ => true
  | .str _ => false
  | .bool _ => false

/-- key.h: a named, mutable value slot.  Mutation through `setValue` is
modelled functionally: the caller passes a record containing the replaced
value to the next evaluation call. -/
structure Key where
  name : String
  value : Value
deriving DecidableEq, Repr

/-- filter_structs.h: `UnaryExpression { op; key; value }`. -/
structure UnaryExpression where
  op : ComparisonOperations
  key : String
  value : Value
deriving DecidableEq, Repr

/-- filter_structs.h: `BinaryExpression { left_key; arith_op; right_key;
comp_op; value }`. -/
structure BinaryExpression where
  left_key : String
  arith_op : ArithmeticOperations
  right_key : String
  comp_op : ComparisonOperations
  value : Value
deriving DecidableEq, Repr

/-- filter_structs.h: `std::variant<UnaryExpression, BinaryExpression>`. -/
inductive Expr where
  | unary (e : UnaryExpression)
  | binary (e : BinaryExpression)
deriving DecidableEq, Repr

/-- filter_structs.h: `SubExpression { expr; prev_logical_op }`. -/
structure SubExpression where
  expr : Expr
  prev_logical_op : LogicalOperations
deriving DecidableEq, Repr

/-- filter_structs.h: `FilterCondition { sub_expressions }`. -/
structure FilterCondition where
  sub_expressions : List SubExpression
deriving DecidableEq, Repr

/-- The error kinds of the spec taxonomy; every `throw ParseException(msg)`
of parser.cpp is classified by its message:
"Comparison requires operands of the same type" and "Arithmetic operations
require numeric types" are `typeMismatch`; "Key not found: n" is
`keyNotFound n`; "Division by zero" is `divisionByZero`; the unsupported
operation and unknown-expression defaults are `unsupportedOperation`. -/
inductive EvalErr where
  | typeMismatch
  | keyNotFound (name : String)
  | divisionByZero
  | unsupportedOperation
deriving DecidableEq, Repr

deriving instance DecidableEq for Except

/-- The six-way comparison switch shared by the int64, double and string arms
of `LanguageParser::evaluateComparison` (the `default:` branch of the C++
switch is unreachable for a six-valued enum). -/
def compareOrd {α : Type} [DecidableEq α] [LT α] [LE α]
    [DecidableRel fun a b : α => a < b] [DecidableRel fun a b : α => a ≤ b]
    (op : ComparisonOperations) (l r : α) : Bool :=
  match op with
  | .EQUAL => decide (l = r)
  | .NOT_EQUAL => decide (l ≠ r)
  | .GREATER_THAN => decide (r < l)
  | .LESS_THAN => decide (l < r)
  | .GREATER_EQUAL => decide (r ≤ l)
  | .LESS_EQUAL => decide (l ≤ r)

/-- Lexicographic (code-point, equivalently byte-wise) strict order on
character lists, mirroring `std::string::operator<`. -/
def charListLtB : List Char → List Char → Bool
  | [], [] => false
  | [], _ :: _ => true
  | _ :: _, [] => false
  | a :: as, b :: bs =>
    if a.toNat < b.toNat then true
    else if b.toNat < a.toNat then false
    else charListLtB as bs

/-- `std::string` strict lexicographic order. -/
def strLtB (a b : String) : Bool :=
  charListLtB a.data b.data

/-- The six-way comparison switch of the string arm of
`LanguageParser::evaluateComparison`, with the C++ derived operators
expressed through the strict order (`l >= r` is `!(l < r)`, `l <= r` is
`!(r < l)`). -/
def compareStr (op : ComparisonOperations) (l r : String) : Bool :=
  match op with
  | .EQUAL => decide (l = r)
  | .NOT_EQUAL => decide (l ≠ r)
  | .GREATER_THAN => strLtB r l
  | .LESS_THAN => strLtB l r
  | .GREATER_EQUAL => !strLtB l r
  | .LESS_EQUAL => !strLtB r l

/-- The float branch of `LanguageParser::evaluateArithmetic`: both operands
already promoted to double, computed in the float domain; DIVIDE first tests
the right operand against zero. -/
def floatArith (l : Rat) (op : ArithmeticOperations) (r : Rat) :
    Except EvalErr Value :=
  match op with
  | .ADD => .ok (.float (l + r))
  | .SUBTRACT => .ok (.float (l - r))
  | .MULTIPLY => .ok (.float (l * r))
  | .DIVIDE => if r = 0 then .error .divisionByZero else .ok (.float (l / r))

/-- `LanguageParser::evaluateArithmetic`: both-int64 branch computes in the
integer domain (C++ `/` truncates toward zero, `Int.tdiv`); otherwise, if
both operands are numeric, both are promoted to double and computed in the
float domain; otherwise TypeMismatch. -/
def evaluateArithmetic (left : Value) (op : ArithmeticOperations)
    (right : Value) : Except EvalErr Value :=
  match left, right with
  | .int l, .int r =>
    match op with
    | .ADD => .ok (.int (l + r))
    | .SUBTRACT => .ok (.int (l - r))
    | .MULTIPLY => .ok (.int (l * r))
    | .DIVIDE =>
      if r = 0 then .error .divisionByZero else .ok (.int (l.tdiv r))
  | .int l, .float r => floatArith (l : Rat) op r
  | .float l, .int r => floatArith l op (r : Rat)
  | .float l, .float r => floatArith l op r
  | _, _ => .error .typeMismatch

/-- `LanguageParser::evaluateComparison`: operands of differing variant index
fail with TypeMismatch; int64, double and string arms admit all six
operators; the bool arm admits only EQUAL and NOT_EQUAL and fails with
UnsupportedOperation otherwise. -/
def evaluateComparison (left : Value) (op : ComparisonOperations)
    (right : Value) : Except EvalErr Bool :=
  if left.variantIndex ≠ right.variantIndex then
    .error .typeMismatch
  else
    match left, right with
    | .int l, .int r => .ok (compareOrd op l r)
    | .float l, .float r => .ok (compareOrd op l r)
    | .str l, .str r => .ok (compareStr op l r)
    | .bool l, .bool r =>
      match op with
      | .EQUAL => .ok (l == r)
      | .NOT_EQUAL => .ok (l != r)
      | _ => .error .unsupportedOperation
    | _, _ => .error .typeMismatch

/-- `LanguageParser::getValueFromKey`: linear `std::find_if`, first key in
record order whose name equals `keyName`; absence throws KeyNotFound. -/
def getValueFromKey (keys : List Key) (keyName : String) :
    Except EvalErr Value :=
  match keys with
  | [] => .error (.keyNotFound keyName)
  | k :: rest =>
    if k.name = keyName then .ok k.value else getValueFromKey rest keyName

/-- One step of the keyMap-building loop of the optimized parse lambda:
`keyMap[name] = value` replaces the binding of `name` in place when present
and appends it otherwise. -/
def insertReplace (m : List (String × Value)) (name : String) (v : Value) :
    List (String × Value) :=
  match m with
  | [] => [(name, v)]
  | (n, w) :: rest =>
    if n = name then (n, v) :: rest else (n, w) :: insertReplace rest name v

/-- The keyMap-building loop of the optimized parse lambda: insert every key
of the record, in record order, so a later key with the same name overwrites
an earlier one.  (The container is modelled as an association list with
in-place replacement; only lookups are observed, so the hash layout of
`std::unordered_map` is irrelevant.) -/
def buildKeyMap (keys : List Key) : List (String × Value) :=
  keys.foldl (fun m k => insertReplace m k.name k.value) []

/-- `LanguageParser::getValueFromKeyMap`: map lookup; absence throws
KeyNotFound. -/
def getValueFromKeyMap (keyMap : List (String × Value)) (keyName : String) :
    Except EvalErr Value :=
  match keyMap with
  | [] => .error (.keyNotFound keyName)
  | (n, v) :: rest =>
    if n = keyName then .ok v else getValueFromKeyMap rest keyName

/-- The logical-fold switch of the parse lambda: AND and OR fold the new
sub-result into the accumulator, NONE overwrites the accumulator, and any
other tag (NOT) hits the `default:` branch and fails. -/
def applyLogical (result : Bool) (op : LogicalOperations) (subResult : Bool) :
    Except EvalErr Bool :=
  match op with
  | .AND => .ok (result && subResult)
  | .OR => .ok (result || subResult)
  | .NONE => .ok subResult
  | .NOT => .error .unsupportedOperation

/-- The per-sub-expression body of the parse lambda, parametrized by the key
lookup (linear search in the first revision, keyMap lookup in the optimized
one): a Unary sub-expression resolves its key and compares against the
literal; a Binary sub-expression resolves both keys, applies the arithmetic
evaluator and compares its result against the literal.  Each failing step
aborts. -/
def evaluateSubExpr (lookup : String → Except EvalErr Value)
    (s : SubExpression) : Except EvalErr Bool :=
  match s.expr with
  | .unary e =>
    match lookup e.key with
    | .error err => .error err
    | .ok keyValue => evaluateComparison keyValue e.op e.value
  | .binary e =>
    match lookup e.left_key with
    | .error err => .error err
    | .ok leftValue =>
      match lookup e.right_key with
      | .error err => .error err
      | .ok rightValue =>
        match evaluateArithmetic leftValue e.arith_op rightValue with
        | .error err => .error err
        | .ok arithResult =>
          evaluateComparison arithResult e.comp_op e.value

/-- The loop of the parse lambda: `result` starts at `true`, every
sub-expression is evaluated in sequence order, its boolean is folded through
`applyLogical`, and any failure aborts the whole call. -/
def evalSubList (lookup : String → Except EvalErr Value) :
    List SubExpression → Bool → Except EvalErr Bool
  | [], result => .ok result
  | s :: rest, result =>
    match evaluateSubExpr lookup s with
    | .error err => .error err
    | .ok subResult =>
      match applyLogical result s.prev_logical_op subResult with
      | .error err => .error err
      | .ok newResult => evalSubList lookup rest newResult

/-- The predicate produced by the first revision of `LanguageParser::parse`:
key resolution by linear search over the record. -/
def evalLinear (condition : FilterCondition) (keys : List Key) :
    Except EvalErr Bool :=
  evalSubList (getValueFromKey keys) condition.sub_expressions true

/-- The predicate produced by the optimized `LanguageParser::parse`: a keyMap
is built over the record (last occurrence of a name wins) and keys resolve
through it. -/
def evalMap (condition : FilterCondition) (keys : List Key) :
    Except EvalErr Bool :=
  evalSubList (getValueFromKeyMap (buildKeyMap keys))
    condition.sub_expressions true

/-- The last key of the record carrying a given name, when any does. -/
def lastMatch (keys : List Key) (name : String) : Option Key :=
  match keys with
  | [] => none
  | k :: rest =>
    match lastMatch rest name with
    | some k2 => some k2
    | none => if k.name = name then some k else none

/-- The single-sub-expression condition of claim C4: one Unary EQUAL
sub-expression on key `k` against literal `V`, tagged NONE. -/
def singleEqualCondition (k : String) (V : Value) : FilterCondition :=
  ⟨[⟨.unary ⟨.EQUAL, k, V⟩, .NONE⟩]⟩

/-! Helper lemmas about the resolvers and the sequential fold. -/

theorem getValueFromKeyMap_insertReplace (m : List (String × Value))
    (name : String) (v : Value) (q : String) :
    getValueFromKeyMap (insertReplace m name v) q =
      if name = q then .ok v else getValueFromKeyMap m q := by
  induction m with
  | nil =>
    by_cases h : name = q <;> simp [insertReplace, getValueFromKeyMap, h]
  | cons p rest ih =>
    obtain ⟨n, w⟩ := p
    by_cases hn : n = name
    · subst hn
      by_cases hq : n = q <;> simp [insertReplace, getValueFromKeyMap, hq]
    · by_cases hnq : n = q
      · have hq : ¬ name = q := fun h => hn (hnq.trans h.symm)
        have hqn : ¬ q = name := fun h => hn (hnq.trans h)
        simp [insertReplace, getValueFromKeyMap, hn, hnq, hq, hqn]
      · simp [insertReplace, getValueFromKeyMap, hn, hnq, ih]

theorem getValueFromKeyMap_foldl (keys : List Key) :
    ∀ (m : List (String × Value)) (q : String),
    getValueFromKeyMap
        (List.foldl (fun m k => insertReplace m k.name k.value) m keys) q =
      match lastMatch keys q with
      | some k => .ok k.value
      | none => getValueFromKeyMap m q := by
  induction keys with
  | nil => intro m q; simp [lastMatch]
  | cons k rest ih =>
    intro m q
    simp only [List.foldl_cons, lastMatch]
    rw [ih]
    cases h : lastMatch rest q with
    | some k2 => simp
    | none =>
      by_cases hk : k.name = q <;>
        simp [hk, getValueFromKeyMap_insertReplace]

theorem getValueFromKeyMap_buildKeyMap (keys : List Key) (q : String) :
    getValueFromKeyMap (buildKeyMap keys) q =
      match lastMatch keys q with
      | some k => .ok k.value
      | none => .error (.keyNotFound q) := by
  rw [buildKeyMap, getValueFromKeyMap_foldl]
  cases lastMatch keys q <;> simp [getValueFromKeyMap]

theorem lastMatch_eq_none (keys : List Key) (q : String)
    (h : ∀ k ∈ keys, k.name ≠ q) : lastMatch keys q = none := by
  induction keys with
  | nil => rfl
  | cons k rest ih =>
    have hk : k.name ≠ q := h k (List.mem_cons_self k rest)
    have hrest : ∀ k' ∈ rest, k'.name ≠ q :=
      fun k' hk' => h k' (List.mem_cons_of_mem k hk')
    simp [lastMatch, ih hrest, hk]

theorem getValueFromKey_eq_lastMatch_of_nodup (keys : List Key)
    (hnodup : (keys.map Key.name).Nodup) (q : String) :
    getValueFromKey keys q =
      match lastMatch keys q with
      | some k => .ok k.value
      | none => .error (.keyNotFound q) := by
  induction keys with
  | nil => rfl
  | cons k rest ih =>
    rw [List.map_cons, List.nodup_cons] at hnodup
    obtain ⟨hnotmem, hrest⟩ := hnodup
    by_cases hk : k.name = q
    · have hnone : lastMatch rest q = none := by
        refine lastMatch_eq_none rest q (fun k' hk' hq => ?_)
        exact hnotmem (hk ▸ hq ▸ List.mem_map_of_mem Key.name hk')
      simp [getValueFromKey, lastMatch, hk, hnone]
    · cases h : lastMatch rest q with
      | some k2 => simp [getValueFromKey, lastMatch, hk, h, ih hrest]
      | none => simp [getValueFromKey, lastMatch, hk, h, ih hrest]

theorem lookup_eq_of_nodup (keys : List Key)
    (hnodup : (keys.map Key.name).Nodup) (q : String) :
    getValueFromKey keys q = getValueFromKeyMap (buildKeyMap keys) q := by
  rw [getValueFromKeyMap_buildKeyMap,
    getValueFromKey_eq_lastMatch_of_nodup keys hnodup]

theorem evaluateSubExpr_congr (L1 L2 : String → Except EvalErr Value)
    (h : ∀ n, L1 n = L2 n) (s : SubExpression) :
    evaluateSubExpr L1 s = evaluateSubExpr L2 s := by
  cases s with
  | mk e op =>
    cases e with
    | unary e => simp [evaluateSubExpr, h]
    | binary e => simp [evaluateSubExpr, h]

theorem evalSubList_congr (L1 L2 : String → Except EvalErr Value)
    (h : ∀ n, L1 n = L2 n) (subs : List SubExpression) :
    ∀ acc : Bool, evalSubList L1 subs acc = evalSubList L2 subs acc := by
  induction subs with
  | nil => intro acc; rfl
  | cons s rest ih =>
    intro acc
    simp only [evalSubList]
    rw [evaluateSubExpr_congr L1 L2 h s]
    cases hs : evaluateSubExpr L2 s with
    | error e => rfl
    | ok b =>
      dsimp only
      cases hl : applyLogical acc s.prev_logical_op b with
      | error e => rfl
      | ok acc2 => exact ih acc2

theorem evalSubList_append (L : String → Except EvalErr Value)
    (l1 l2 : List SubExpression) :
    ∀ acc : Bool, evalSubList L (l1 ++ l2) acc =
      match evalSubList L l1 acc with
      | .ok a => evalSubList L l2 a
      | .error e => .error e := by
  induction l1 with
  | nil => intro acc; simp [evalSubList]
  | cons s rest ih =>
    intro acc
    simp only [List.cons_append, evalSubList]
    cases hs : evaluateSubExpr L s with
    | error e => rfl
    | ok b =>
      dsimp only
      cases hl : applyLogical acc s.prev_logical_op b with
      | error e => rfl
      | ok acc2 => exact ih acc2

/-! The claims. -/

/-- Claim C1: for every condition and record, evaluation proceeds through the
sub-expressions in sequence order with no short-circuiting: whenever the
sub-expressions split as a prefix that evaluates successfully (to any
accumulator value whatsoever, in particular one that conventional boolean
short-circuit logic would use to skip the rest) followed by a sub-expression
whose own evaluation fails with error `e`, the whole `evaluate` call fails
with `e`. -/
theorem claim_C1_error_propagation (condition : FilterCondition)
    (keys : List Key) (pre post : List SubExpression) (s : SubExpression)
    (acc : Bool) (e : EvalErr)
    (hsplit : condition.sub_expressions = pre ++ s :: post)
    (hpre : evalSubList (getValueFromKeyMap (buildKeyMap keys)) pre true =
      .ok acc)
    (hs : evaluateSubExpr (getValueFromKeyMap (buildKeyMap keys)) s =
      .error e) :
    evalMap condition keys = .error e := by
  rw [evalMap, hsplit, evalSubList_append, hpre]
  dsimp only
  simp [evalSubList, hs]

/-- Claim C1 witness: accumulator is already `false` before an AND-tagged
sub-expression whose key is missing; the call still fails with KeyNotFound
instead of short-circuiting to `false`. -/
theorem claim_C1_error_propagation_witness :
    evalSubList (getValueFromKeyMap (buildKeyMap [⟨"a", .int 1⟩]))
        [⟨.unary ⟨.EQUAL, "a", .int 2⟩, .NONE⟩] true = .ok false ∧
    evaluateSubExpr (getValueFromKeyMap (buildKeyMap [⟨"a", .int 1⟩]))
        ⟨.unary ⟨.EQUAL, "zz", .int 0⟩, .AND⟩ = .error (.keyNotFound "zz") ∧
    evalMap ⟨[⟨.unary ⟨.EQUAL, "a", .int 2⟩, .NONE⟩,
              ⟨.unary ⟨.EQUAL, "zz", .int 0⟩, .AND⟩]⟩ [⟨"a", .int 1⟩] =
      .error (.keyNotFound "zz") :=
  ⟨by decide, by decide,
   claim_C1_error_propagation _ _ [⟨.unary ⟨.EQUAL, "a", .int 2⟩, .NONE⟩] []
     ⟨.unary ⟨.EQUAL, "zz", .int 0⟩, .AND⟩ false _ rfl (by decide) (by decide)⟩

/-- Claim C2: a sub-expression tagged NONE overwrites the accumulator with
its own result, discarding everything accumulated before it (for any
accumulator value); in particular, when the last sub-expression of a
condition is tagged NONE and all prior sub-expressions evaluate
successfully, `evaluate` returns exactly that last sub-expression's own
result. -/
theorem claim_C2_none_discards (keys : List Key) :
    (∀ (s : SubExpression) (rest : List SubExpression) (acc b : Bool),
      s.prev_logical_op = .NONE →
      evaluateSubExpr (getValueFromKeyMap (buildKeyMap keys)) s = .ok b →
      evalSubList (getValueFromKeyMap (buildKeyMap keys)) (s :: rest) acc =
        evalSubList (getValueFromKeyMap (buildKeyMap keys)) rest b) ∧
    (∀ (condition : FilterCondition) (pre : List SubExpression)
        (s : SubExpression) (acc : Bool),
      condition.sub_expressions = pre ++ [s] →
      s.prev_logical_op = .NONE →
      evalSubList (getValueFromKeyMap (buildKeyMap keys)) pre true =
        .ok acc →
      evalMap condition keys =
        evaluateSubExpr (getValueFromKeyMap (buildKeyMap keys)) s) := by
  constructor
  · intro s rest acc b hnone hb
    simp [evalSubList, hb, hnone, applyLogical]
  · intro condition pre s acc hsplit hnone hpre
    rw [evalMap, hsplit, evalSubList_append, hpre]
    dsimp only
    cases hs : evaluateSubExpr (getValueFromKeyMap (buildKeyMap keys)) s with
    | error e => simp [evalSubList, hs]
    | ok b => simp [evalSubList, hs, hnone, applyLogical]

/-- Claim C2 witness: the first sub-expression evaluates to `true`, yet the
final NONE-tagged sub-expression discards it and the call returns that last
sub-expression's own result, `false`. -/
theorem claim_C2_none_discards_witness :
    evalMap ⟨[⟨.unary ⟨.EQUAL, "a", .int 1⟩, .NONE⟩,
              ⟨.unary ⟨.EQUAL, "a", .int 2⟩, .NONE⟩]⟩ [⟨"a", .int 1⟩] =
      evaluateSubExpr (getValueFromKeyMap (buildKeyMap [⟨"a", .int 1⟩]))
        ⟨.unary ⟨.EQUAL, "a", .int 2⟩, .NONE⟩ ∧
    evalMap ⟨[⟨.unary ⟨.EQUAL, "a", .int 1⟩, .NONE⟩,
              ⟨.unary ⟨.EQUAL, "a", .int 2⟩, .NONE⟩]⟩ [⟨"a", .int 1⟩] =
      .ok false :=
  ⟨(claim_C2_none_discards [⟨"a", .int 1⟩]).2 _
     [⟨.unary ⟨.EQUAL, "a", .int 1⟩, .NONE⟩]
     ⟨.unary ⟨.EQUAL, "a", .int 2⟩, .NONE⟩ true rfl rfl (by decide),
   by decide⟩

/-- Claim C3: the resolver index keeps the last-seen value per name: when a
name is carried by at least one key (in particular by two or more), the
resolver used by evaluation returns the value of the last key carrying it
in record order, and a name carried by no key fails with KeyNotFound. -/
theorem claim_C3_resolver_last_wins (keys : List Key) (name : String) :
    (∀ k : Key, lastMatch keys name = some k →
      getValueFromKeyMap (buildKeyMap keys) name = .ok k.value) ∧
    ((∀ k ∈ keys, k.name ≠ name) →
      getValueFromKeyMap (buildKeyMap keys) name =
        .error (.keyNotFound name)) := by
  constructor
  · intro k hk
    rw [getValueFromKeyMap_buildKeyMap, hk]
  · intro habs
    rw [getValueFromKeyMap_buildKeyMap, lastMatch_eq_none keys name habs]

/-- Claim C3 witness: with two keys named "a", resolution yields the later
value; an absent name fails with KeyNotFound. -/
theorem claim_C3_resolver_last_wins_witness :
    lastMatch [⟨"a", .int 1⟩, ⟨"b", .int 5⟩, ⟨"a", .int 2⟩] "a" =
      some ⟨"a", .int 2⟩ ∧
    getValueFromKeyMap
        (buildKeyMap [⟨"a", .int 1⟩, ⟨"b", .int 5⟩, ⟨"a", .int 2⟩]) "a" =
      .ok (.int 2) ∧
    getValueFromKeyMap
        (buildKeyMap [⟨"a", .int 1⟩, ⟨"b", .int 5⟩, ⟨"a", .int 2⟩]) "c" =
      .error (.keyNotFound "c") :=
  ⟨by decide,
   (claim_C3_resolver_last_wins _ "a").1 ⟨"a", .int 2⟩ (by decide),
   (claim_C3_resolver_last_wins _ "c").2 (by decide)⟩

/-- Claim C4 counterexample: the claim says that after replacing the key's
value with ANY other value the same predicate returns `false`; but replacing
`Integer 1` with a value of a different variant (`Boolean true`) makes the
EQUAL comparison fail with TypeMismatch instead of returning `false`. -/
theorem claim_C4_counterexample :
    evalMap (singleEqualCondition "a" (.int 1)) [⟨"a", .int 1⟩] = .ok true ∧
    evalMap (singleEqualCondition "a" (.int 1)) [⟨"a", .bool true⟩] =
      .error .typeMismatch ∧
    evalMap (singleEqualCondition "a" (.int 1)) [⟨"a", .bool true⟩] ≠
      .ok false :=
  ⟨by decide, by decide, by decide⟩

/-- Claim C4 (amended): for a single Unary EQUAL sub-expression on key `k`
with literal `V`, whenever the record resolves `k` to `v`, `evaluate`
returns `true` iff `v` equals `V` (same variant tag and equal payload);
replacing the key's value with a DIFFERENT value OF THE SAME VARIANT yields
`false` on re-invocation, while a replacement of a different variant fails
with TypeMismatch. -/
theorem claim_C4_single_equal_amended (k : String) (V : Value)
    (keys : List Key) (v : Value)
    (hres : getValueFromKeyMap (buildKeyMap keys) k = .ok v) :
    (evalMap (singleEqualCondition k V) keys = .ok true ↔ v = V) ∧
    (v.variantIndex = V.variantIndex → v ≠ V →
      evalMap (singleEqualCondition k V) keys = .ok false) ∧
    (v.variantIndex ≠ V.variantIndex →
      evalMap (singleEqualCondition k V) keys = .error .typeMismatch) := by
  have hred : evalMap (singleEqualCondition k V) keys =
      evaluateComparison v .EQUAL V := by
    rw [evalMap, singleEqualCondition]
    dsimp only [evalSubList, evaluateSubExpr]
    rw [hres]
    cases hc : evaluateComparison v .EQUAL V with
    | error e => simp [hc]
    | ok b => simp [hc, applyLogical, evalSubList]
  simp only [hred]
  refine ⟨?_, ?_, ?_⟩
  · cases v <;> cases V <;>
      simp [evaluateComparison, compareOrd, compareStr, Value.variantIndex]
  · cases v <;> cases V <;>
      simp [evaluateComparison, compareOrd, compareStr, Value.variantIndex]
  · cases v <;> cases V <;>
      simp [evaluateComparison, compareOrd, compareStr, Value.variantIndex]

/-- Claim C4 witness (for the amended claim): equal value gives `true`; a
same-variant different value gives `false`. -/
theorem claim_C4_single_equal_amended_witness :
    evalMap (singleEqualCondition "k0" (.int 42)) [⟨"k0", .int 42⟩] =
      .ok true ∧
    evalMap (singleEqualCondition "k0" (.int 42)) [⟨"k0", .int 7⟩] =
      .ok false :=
  ⟨(claim_C4_single_equal_amended "k0" (.int 42) [⟨"k0", .int 42⟩]
      (.int 42) (by decide)).1.mpr rfl,
   (claim_C4_single_equal_amended "k0" (.int 42) [⟨"k0", .int 7⟩]
      (.int 7) (by decide)).2.1 rfl (by decide)⟩

/-- Claim C5: the arithmetic promotion rule, for every operator: both
Integer operands compute in the integer domain and return an Integer (when
not dividing by integer zero); a Float operand paired with an Integer or
Float promotes both operands to the float domain (the mixed cases equal the
promoted both-float computation, which returns a Float unless it is a
DIVIDE by float zero); a Text or Boolean operand always fails with
TypeMismatch. -/
theorem claim_C5_promotion_rule (op : ArithmeticOperations) :
    (∀ a b : Int, ¬(op = .DIVIDE ∧ b = 0) →
      ∃ n : Int, evaluateArithmetic (.int a) op (.int b) = .ok (.int n)) ∧
    (∀ (a : Int) (q : Rat),
      evaluateArithmetic (.int a) op (.float q) =
        floatArith ((a : Int) : Rat) op q ∧
      evaluateArithmetic (.float q) op (.int a) =
        floatArith q op ((a : Int) : Rat)) ∧
    (∀ p q : Rat,
      evaluateArithmetic (.float p) op (.float q) = floatArith p op q) ∧
    (∀ p q : Rat,
      (∃ r : Rat, floatArith p op q = .ok (.float r)) ∨
      (op = .DIVIDE ∧ q = 0 ∧
        floatArith p op q = .error .divisionByZero)) ∧
    (∀ l r : Value, (l.isNumeric = false ∨ r.isNumeric = false) →
      evaluateArithmetic l op r = .error .typeMismatch) := by
  refine ⟨?_, fun a q => ⟨rfl, rfl⟩, fun p q => rfl, ?_, ?_⟩
  · intro a b hnot
    cases op with
    | ADD => exact ⟨a + b, rfl⟩
    | SUBTRACT => exact ⟨a - b, rfl⟩
    | MULTIPLY => exact ⟨a * b, rfl⟩
    | DIVIDE =>
      have hb : ¬ b = 0 := fun h => hnot ⟨rfl, h⟩
      exact ⟨a.tdiv b, by simp [evaluateArithmetic, hb]⟩
  · intro p q
    cases op with
    | ADD => exact .inl ⟨p + q, rfl⟩
    | SUBTRACT => exact .inl ⟨p - q, rfl⟩
    | MULTIPLY => exact .inl ⟨p * q, rfl⟩
    | DIVIDE =>
      by_cases hq : q = 0
      · exact .inr ⟨rfl, hq, by simp [floatArith, hq]⟩
      · exact .inl ⟨p / q, by simp [floatArith, hq]⟩
  · intro l r h
    cases l <;> cases r <;>
      first
        | rfl
        | (exfalso; simp [Value.isNumeric] at h)

/-- Claim C5 witness: an integer-only computation, a mixed promotion, and a
Text operand rejection, at concrete inputs. -/
theorem claim_C5_promotion_rule_witness :
    (∃ n : Int, evaluateArithmetic (.int 7) .ADD (.int 5) = .ok (.int n)) ∧
    evaluateArithmetic (.int 3) .MULTIPLY (.float (1/2)) =
      floatArith ((3 : Int) : Rat) .MULTIPLY (1/2) ∧
    evaluateArithmetic (.str "x") .ADD (.int 1) = .error .typeMismatch :=
  ⟨(claim_C5_promotion_rule .ADD).1 7 5 (by decide),
   ((claim_C5_promotion_rule .MULTIPLY).2.1 3 (1/2)).1,
   (claim_C5_promotion_rule .ADD).2.2.2.2 (.str "x") (.int 1) (by decide)⟩

/-- Claim C6: DIVIDE with a numeric left operand and a right operand that is
Integer zero or Float zero always fails with DivisionByZero, independent of
the dividend; no value (in particular no infinity) is produced. -/
theorem claim_C6_divide_by_zero (l r : Value)
    (hl : l.isNumeric = true) (hr : r = .int 0 ∨ r = .float 0) :
    evaluateArithmetic l .DIVIDE r = .error .divisionByZero := by
  rcases hr with hr | hr <;> subst hr <;>
    (cases l with
     | int a => simp [evaluateArithmetic, floatArith]
     | float p => simp [evaluateArithmetic, floatArith]
     | str s => simp [Value.isNumeric] at hl
     | bool b => simp [Value.isNumeric] at hl)

/-- Claim C6 witness: integer, float, and mixed dividends over both zero
variants. -/
theorem claim_C6_divide_by_zero_witness :
    evaluateArithmetic (.int 10) .DIVIDE (.int 0) = .error .divisionByZero ∧
    evaluateArithmetic (.float (7/3)) .DIVIDE (.float 0) =
      .error .divisionByZero ∧
    evaluateArithmetic (.int 10) .DIVIDE (.float 0) =
      .error .divisionByZero :=
  ⟨claim_C6_divide_by_zero (.int 10) (.int 0) (by decide) (.inl rfl),
   claim_C6_divide_by_zero (.float (7/3)) (.float 0) (by decide) (.inr rfl),
   claim_C6_divide_by_zero (.int 10) (.float 0) (by decide) (.inr rfl)⟩

/-- Claim C7: comparing two values of differing variant tags (including
Integer vs. Float) fails with TypeMismatch for every comparison operator;
no numeric cross-promotion occurs in comparison. -/
theorem claim_C7_comparison_tag_mismatch (l r : Value)
    (op : ComparisonOperations)
    (h : l.variantIndex ≠ r.variantIndex) :
    evaluateComparison l op r = .error .typeMismatch := by
  unfold evaluateComparison
  rw [if_pos h]

/-- Claim C7 witness: Integer vs. Float fails both ways at concrete
operators. -/
theorem claim_C7_comparison_tag_mismatch_witness :
    evaluateComparison (.int 1) .EQUAL (.float 1) = .error .typeMismatch ∧
    evaluateComparison (.float 1) .LESS_THAN (.int 1) =
      .error .typeMismatch :=
  ⟨claim_C7_comparison_tag_mismatch (.int 1) (.float 1) .EQUAL (by decide),
   claim_C7_comparison_tag_mismatch (.float 1) (.int 1) .LESS_THAN
     (by decide)⟩

/-- Claim C8: on Boolean operands the ordering comparators always fail with
UnsupportedOperation, while EQUAL and NOT_EQUAL never fail and return the
boolean equality and inequality. -/
theorem claim_C8_boolean_comparison :
    ∀ a b : Bool,
      evaluateComparison (.bool a) .GREATER_THAN (.bool b) =
        .error .unsupportedOperation ∧
      evaluateComparison (.bool a) .LESS_THAN (.bool b) =
        .error .unsupportedOperation ∧
      evaluateComparison (.bool a) .GREATER_EQUAL (.bool b) =
        .error .unsupportedOperation ∧
      evaluateComparison (.bool a) .LESS_EQUAL (.bool b) =
        .error .unsupportedOperation ∧
      evaluateComparison (.bool a) .EQUAL (.bool b) = .ok (a == b) ∧
      evaluateComparison (.bool a) .NOT_EQUAL (.bool b) = .ok (a != b) := by
  decide

/-- Claim C9: a condition with zero sub-expressions evaluates to `true` for
every record, under both the linear-search and the keyMap evaluator. -/
theorem claim_C9_empty_condition (keys : List Key) :
    evalMap ⟨[]⟩ keys = .ok true ∧ evalLinear ⟨[]⟩ keys = .ok true :=
  ⟨rfl, rfl⟩

/-- Claim C10: on records whose key names are pairwise distinct, the
linear-search evaluator and the keyMap evaluator agree on every prefix of
the condition (hence any failure arises at the same sub-expression with the
same error) and produce the same final outcome. -/
theorem claim_C10_linear_map_equivalence (condition : FilterCondition)
    (keys : List Key) (hnodup : (keys.map Key.name).Nodup) :
    (∀ n : Nat,
      evalSubList (getValueFromKey keys)
          (condition.sub_expressions.take n) true =
        evalSubList (getValueFromKeyMap (buildKeyMap keys))
          (condition.sub_expressions.take n) true) ∧
    evalLinear condition keys = evalMap condition keys := by
  have hlook : ∀ q,
      getValueFromKey keys q = getValueFromKeyMap (buildKeyMap keys) q :=
    lookup_eq_of_nodup keys hnodup
  exact ⟨fun n => evalSubList_congr _ _ hlook _ true,
    evalSubList_congr _ _ hlook _ true⟩

/-- Claim C10 witness: both evaluators agree on a concrete two-key record
with distinct names. -/
theorem claim_C10_linear_map_equivalence_witness :
    (([⟨"A", .int 15⟩, ⟨"B", .int 15⟩] : List Key).map Key.name).Nodup ∧
    evalLinear ⟨[⟨.unary ⟨.GREATER_THAN, "A", .int 10⟩, .NONE⟩,
                 ⟨.unary ⟨.LESS_THAN, "B", .int 20⟩, .AND⟩]⟩
        [⟨"A", .int 15⟩, ⟨"B", .int 15⟩] =
      evalMap ⟨[⟨.unary ⟨.GREATER_THAN, "A", .int 10⟩, .NONE⟩,
                ⟨.unary ⟨.LESS_THAN, "B", .int 20⟩, .AND⟩]⟩
        [⟨"A", .int 15⟩, ⟨"B", .int 15⟩] :=
  ⟨by decide, (claim_C10_linear_map_equivalence _ _ (by decide)).2⟩

end ExpressionEvaluator
